import Mathlib

/-!
# Verification of the document index (document_search.go)

Shallow embedding of the document index of `public_docs_server`:
the `DocumentIndex` state, the scanner (`scanDocuments`, built on
`filepath.Walk`), the query operation (`SearchDocuments`), the statistics
operation (`GetIndexStats`) and the on-demand refresh (`ForceRefresh`).

Modelling conventions:
* Timestamps are `Nat` (Go `time.Time{}` zero value is `0`;
  `time.Since t` at instant `now` is `now - t`).
* The Go map `map[string][]DocumentInfo` is an association list
  `List (String × List DocumentInfo)`; insertion (`insertDoc`) appends to
  the group of an existing key and otherwise adds a fresh key, matching
  `di.documents[docName] = append(di.documents[docName], docInfo)`.
* A filesystem walk is abstracted by the list of callback invocations
  `filepath.Walk` performs: `WalkEvent.error p` is an invocation with a
  non-nil `err` argument (in particular, when `lstat` on the root fails,
  `filepath.Walk` performs exactly one such invocation at the root), and
  `WalkEvent.entry p info` is an invocation for a successfully visited
  entry.  `runWalk` mirrors `filepath.Walk`: it feeds the events to the
  callback in order and aborts with the first non-nil error the callback
  returns (which, for the callback of `scanDocuments`, never happens).
* `goIsSpace` is Go `unicode.IsSpace` on the code points it declares
  white space; `trimSpace` is `strings.TrimSpace`.
-/

/-- Embeds Go struct `DocumentInfo` from document_search.go. -/
structure DocumentInfo where
  id : String
  path : String
  name : String
  size : Int
  modTime : Nat
  fullPath : String
  deriving DecidableEq, Repr

/-- The type of the Go field `documents map[string][]DocumentInfo`. -/
abbrev DocsMap := List (String × List DocumentInfo)

/-- Embeds Go struct `DocumentIndex` (the mutex is the access discipline,
not data, and is modelled by the atomic-step trace semantics below). -/
structure DocumentIndex where
  documents : DocsMap
  lastScan : Nat
  deriving DecidableEq, Repr

/-- Embeds `NewDocumentIndex`: empty map, zero timestamp. -/
def NewDocumentIndex : DocumentIndex :=
  { documents := [], lastScan := 0 }

/-- Embeds Go struct `SearchResult`. -/
structure SearchResult where
  query : String
  results : List DocumentInfo
  count : Nat
  searchTime : Nat
  deriving DecidableEq, Repr

/-- Go `unicode.IsSpace`: the White_Space code points. -/
def goIsSpace (c : Char) : Bool :=
  c.toNat = 0x09 || c.toNat = 0x0A || c.toNat = 0x0B || c.toNat = 0x0C ||
  c.toNat = 0x0D || c.toNat = 0x20 || c.toNat = 0x85 || c.toNat = 0xA0 ||
  c.toNat = 0x1680 || (0x2000 ≤ c.toNat && c.toNat ≤ 0x200A) ||
  c.toNat = 0x2028 || c.toNat = 0x2029 || c.toNat = 0x202F ||
  c.toNat = 0x205F || c.toNat = 0x3000

/-- Go `strings.TrimSpace`: drop leading and trailing white space. -/
def trimSpace (s : String) : String :=
  ⟨((s.data.dropWhile goIsSpace).reverse.dropWhile goIsSpace).reverse⟩

/-- Go `strings.HasPrefix s p`. -/
def hasPfx (s p : String) : Bool :=
  p.data.isPrefixOf s.data

/-- The part of Go `os.FileInfo` the scanner reads. -/
structure FileInfo where
  name : String
  size : Int
  modTime : Nat
  isDir : Bool
  deriving DecidableEq, Repr

/-- One invocation of the `filepath.Walk` callback: either an invocation
with a non-nil `err` (per-entry failure, or `lstat` failure at the root),
or a successfully visited entry with its path and `os.FileInfo`. -/
inductive WalkEvent where
  | error (path : String)
  | entry (path : String) (info : FileInfo)
  deriving DecidableEq, Repr

/-- Whether the event is a callback invocation with a non-nil error. -/
def WalkEvent.isErr : WalkEvent → Bool
  | .error _ => true
  | .entry _ _ => false

/-- Go `filepath.Rel rootPath path` for the path shapes a walk rooted at
`rootPath` produces: the root itself maps to ".", a path below the root
has the "rootPath/" head stripped; other shapes are not produced by the
walk and are returned unchanged. -/
def filepathRel (rootPath path : String) : String :=
  if path = rootPath then "."
  else if (rootPath ++ "/").data.isPrefixOf path.data then
    ⟨path.data.drop (rootPath.data.length + 1)⟩
  else path

/-- The `DocumentInfo` literal built in the walk callback of
`scanDocuments`. -/
def mkDoc (rootPath path : String) (info : FileInfo) : DocumentInfo :=
  { id := info.name
    path := filepathRel rootPath path
    name := info.name
    size := info.size
    modTime := info.modTime
    fullPath := path }

/-- Go `di.documents[docName] = append(di.documents[docName], docInfo)`:
append to the group of `docName`, creating the key if absent. -/
def insertDoc (m : DocsMap) (key : String) (d : DocumentInfo) : DocsMap :=
  match m with
  | [] => [(key, [d])]
  | (k, ds) :: rest =>
    if k = key then (k, ds ++ [d]) :: rest
    else (k, ds) :: insertDoc rest key d

/-- The walk callback of `scanDocuments`, acting on the documents map.
Returns the updated map and the error the callback returns to
`filepath.Walk` (always `none`: the callback logs failures and returns
nil, skips directories, and indexes entries with a non-empty name). -/
def walkStep (rootPath : String) (docs : DocsMap) :
    WalkEvent → DocsMap × Option String
  | .error _ => (docs, none)
  | .entry path info =>
    if info.isDir then (docs, none)
    else if info.name = "" then (docs, none)
    else (insertDoc docs info.name (mkDoc rootPath path info), none)

/-- `filepath.Walk` driving the callback of `scanDocuments`: feed the
events in order, aborting with the first non-nil error the callback
returns. -/
def runWalk (rootPath : String) (docs : DocsMap) :
    List WalkEvent → DocsMap × Option String
  | [] => (docs, none)
  | ev :: rest =>
    match walkStep rootPath docs ev with
    | (d, none) => runWalk rootPath d rest
    | (d, some e) => (d, some e)

/-- Embeds `scanDocuments`: clear the map, walk the tree, and update
`lastScan` unless the walk returned an error (`now` is the instant of
the `time.Now()` call at the end of a successful scan). -/
def scanDocuments (di : DocumentIndex) (rootPath : String)
    (events : List WalkEvent) (now : Nat) : DocumentIndex :=
  let cleared : DocsMap := []
  let r := runWalk rootPath cleared events
  match r.2 with
  | some _ => { documents := r.1, lastScan := di.lastScan }
  | none => { documents := r.1, lastScan := now }

/-- Embeds `SearchDocuments`: trim the query, return an empty result on a
blank query, otherwise collect every group whose key has the query as a
prefix. -/
def SearchDocuments (di : DocumentIndex) (query : String)
    (now : Nat) : SearchResult :=
  let query := trimSpace query
  if query = "" then
    { query := query, results := [], count := 0, searchTime := now }
  else
    let results := di.documents.foldl
      (fun acc g => if hasPfx g.1 query then acc ++ g.2 else acc) []
    { query := query, results := results, count := results.length
      searchTime := now }

/-- The statistics record `GetIndexStats` returns (the Go code returns
them as a `map[string]interface\x7b\x7d` with these four keys). -/
structure IndexStats where
  unique_ids : Nat
  total_files : Nat
  last_scan : Nat
  index_age : Nat
  deriving DecidableEq, Repr

/-- Embeds `GetIndexStats` at instant `now`. -/
def GetIndexStats (di : DocumentIndex) (now : Nat) : IndexStats :=
  { unique_ids := di.documents.length
    total_files := di.documents.foldl (fun acc g => acc + g.2.length) 0
    last_scan := di.lastScan
    index_age := now - di.lastScan }

/-- Embeds `ForceRefresh`: log and rescan. -/
def ForceRefresh (di : DocumentIndex) (rootPath : String)
    (events : List WalkEvent) (now : Nat) : DocumentIndex :=
  scanDocuments di rootPath events now

/-! ## Basic facts about the walk -/

/-- The walk callback of `scanDocuments` returns nil on every invocation:
per-entry errors are logged and swallowed, directories and nameless
entries are skipped, indexing an entry succeeds. -/
theorem walkStep_err_none (r : String) (docs : DocsMap) (ev : WalkEvent) :
    (walkStep r docs ev).2 = none := by
  cases ev with
  | error p => rfl
  | entry p info =>
    simp only [walkStep]
    split
    · rfl
    · split <;> rfl

/-- Unfolding `runWalk` one event at a time (possible because the
callback never returns an error, so the walk never aborts). -/
theorem runWalk_cons (r : String) (docs : DocsMap) (ev : WalkEvent)
    (rest : List WalkEvent) :
    runWalk r docs (ev :: rest) = runWalk r (walkStep r docs ev).1 rest := by
  have h := walkStep_err_none r docs ev
  rcases hw : walkStep r docs ev with ⟨d, e⟩
  rw [hw] at h
  simp only at h
  subst h
  simp [runWalk, hw]

/-- `filepath.Walk`, driven by the callback of `scanDocuments`, returns a
nil error on every event sequence. -/
theorem runWalk_err_none (r : String) :
    ∀ (evs : List WalkEvent) (docs : DocsMap), (runWalk r docs evs).2 = none
  | [], _ => rfl
  | ev :: rest, docs => by
    rw [runWalk_cons]
    exact runWalk_err_none r rest _

/-- Characterization of `scanDocuments`: because the walk never reports
an error, a scan always installs the freshly built map and always stamps
`lastScan` with the completion time — the error-abort branch of the Go
code is unreachable. -/
theorem scanDocuments_eq (di : DocumentIndex) (r : String)
    (evs : List WalkEvent) (now : Nat) :
    scanDocuments di r evs now =
      { documents := (runWalk r [] evs).1, lastScan := now } := by
  have h := runWalk_err_none r evs []
  rcases hw : runWalk r ([] : DocsMap) evs with ⟨d, e⟩
  rw [hw] at h
  simp only at h
  subst h
  simp [scanDocuments, hw]

/-! ## The three-file scenario tree (spec section 8) -/

/-- Walk events for a root containing `a/report.txt`, `b/report.txt` and
`c/notes.md` (directories first, depth-first, as `filepath.Walk` visits
them). -/
def scenarioEvents : List WalkEvent :=
  [ .entry "/docs" ⟨"docs", 0, 0, true⟩
  , .entry "/docs/a" ⟨"a", 0, 0, true⟩
  , .entry "/docs/a/report.txt" ⟨"report.txt", 10, 1, false⟩
  , .entry "/docs/b" ⟨"b", 0, 0, true⟩
  , .entry "/docs/b/report.txt" ⟨"report.txt", 20, 2, false⟩
  , .entry "/docs/c" ⟨"c", 0, 0, true⟩
  , .entry "/docs/c/notes.md" ⟨"notes.md", 30, 3, false⟩ ]

/-- The index obtained by refreshing an empty index over the scenario
tree at instant 50. -/
def scenarioIndex : DocumentIndex :=
  scanDocuments NewDocumentIndex "/docs" scenarioEvents 50

/-- The record indexed for `a/report.txt`. -/
def docAReport : DocumentInfo :=
  { id := "report.txt", path := "a/report.txt", name := "report.txt"
    size := 10, modTime := 1, fullPath := "/docs/a/report.txt" }

/-- The record indexed for `b/report.txt`. -/
def docBReport : DocumentInfo :=
  { id := "report.txt", path := "b/report.txt", name := "report.txt"
    size := 20, modTime := 2, fullPath := "/docs/b/report.txt" }

/-! ## Claim theorems -/

/-- C1 (evidence for the divergence): when the walk fails at the root
itself — `filepath.Walk` performs the single callback invocation
`WalkEvent.error` at the root — `scanDocuments` does NOT retain the
previous snapshot: the documents map was already cleared before the walk
and the callback swallows the root error, so the walk reports success,
the empty map replaces the prior one, and `lastScan` is stamped anew.
Evaluated at a concrete prior snapshot holding three records with
`lastScan = 50`. -/
theorem scan_root_failure_replaces_snapshot :
    (scanDocuments scenarioIndex "/docs" [WalkEvent.error "/docs"] 100).documents = []
  ∧ (scanDocuments scenarioIndex "/docs" [WalkEvent.error "/docs"] 100).lastScan = 100
  ∧ scenarioIndex.documents ≠ []
  ∧ scenarioIndex.lastScan = 50 := by decide

/-- C5: on the scenario tree, search "report" returns exactly the two
`report.txt` records, with distinct relative paths `a/report.txt` and
`b/report.txt`; search "notes" returns one record; search "zzz" returns
none; and every indexed record's identifier is the entry's base filename
(its `name`), stored without normalization. -/
theorem scenario_searches :
    (SearchDocuments scenarioIndex "report" 60).count = 2
  ∧ (SearchDocuments scenarioIndex "report" 60).results = [docAReport, docBReport]
  ∧ docAReport.path = "a/report.txt"
  ∧ docBReport.path = "b/report.txt"
  ∧ docAReport.path ≠ docBReport.path
  ∧ (SearchDocuments scenarioIndex "notes" 60).count = 1
  ∧ (SearchDocuments scenarioIndex "zzz" 60).count = 0
  ∧ (∀ g ∈ scenarioIndex.documents, ∀ d ∈ g.2, d.id = d.name) := by decide

/-- C6: refresh is idempotent on the record set — scanning twice over the
same unchanged walk events yields the same documents map (the scan
rebuilds the map from scratch, so its contents depend only on the root
and the walk events, not on the prior state). -/
theorem refresh_idempotent (di : DocumentIndex) (r : String)
    (evs : List WalkEvent) (t1 t2 : Nat) :
    (ForceRefresh (ForceRefresh di r evs t1) r evs t2).documents
      = (ForceRefresh di r evs t1).documents := by
  simp [ForceRefresh, scanDocuments_eq]

/-- Sum of group sizes, with a generalized accumulator, matching the
loop of `GetIndexStats`. -/
theorem foldl_add_sizes :
    ∀ (l : DocsMap) (n : Nat),
      l.foldl (fun acc g => acc + g.2.length) n
        = n + (l.map (fun g => g.2.length)).sum
  | [], n => by simp
  | g :: rest, n => by
    simp [foldl_add_sizes rest, Nat.add_assoc]

/-- C7: `GetIndexStats` reports the number of keys of the snapshot map as
the distinct-identifier count, the sum of the group sizes as the total
record count, the last successful scan timestamp, and the index age
measured from that timestamp. -/
theorem stats_correct (di : DocumentIndex) (now : Nat) :
    (GetIndexStats di now).unique_ids = (di.documents.map Prod.fst).length
  ∧ (GetIndexStats di now).total_files
      = (di.documents.map (fun g => g.2.length)).sum
  ∧ (GetIndexStats di now).last_scan = di.lastScan
  ∧ (GetIndexStats di now).index_age = now - di.lastScan := by
  refine ⟨?_, ?_, rfl, rfl⟩
  · simp [GetIndexStats]
  · simp [GetIndexStats, foldl_add_sizes]

/-! ## Search lemmas -/

/-- Membership in the result accumulator of the search loop. -/
theorem mem_search_foldl (q : String) :
    ∀ (l : DocsMap) (acc : List DocumentInfo) (d : DocumentInfo),
      (d ∈ l.foldl
          (fun acc g => if hasPfx g.1 q then acc ++ g.2 else acc) acc) ↔
        d ∈ acc ∨ ∃ g, g ∈ l ∧ hasPfx g.1 q = true ∧ d ∈ g.2
  | [], acc, d => by simp
  | g :: rest, acc, d => by
    simp only [List.foldl_cons]
    rw [mem_search_foldl q rest]
    by_cases h : hasPfx g.1 q
    · simp only [if_pos h, List.mem_append, List.mem_cons]
      constructor
      · rintro ((hd | hd) | ⟨g1, hg1, hp1, hd1⟩)
        · exact Or.inl hd
        · exact Or.inr ⟨g, Or.inl rfl, h, hd⟩
        · exact Or.inr ⟨g1, Or.inr hg1, hp1, hd1⟩
      · rintro (hd | ⟨g1, (rfl | hg1), hp1, hd1⟩)
        · exact Or.inl (Or.inl hd)
        · exact Or.inl (Or.inr hd1)
        · exact Or.inr ⟨g1, hg1, hp1, hd1⟩
    · simp only [if_neg h, List.mem_cons]
      constructor
      · rintro (hd | ⟨g1, hg1, hp1, hd1⟩)
        · exact Or.inl hd
        · exact Or.inr ⟨g1, Or.inr hg1, hp1, hd1⟩
      · rintro (hd | ⟨g1, (rfl | hg1), hp1, hd1⟩)
        · exact Or.inl hd
        · exact absurd hp1 h
        · exact Or.inr ⟨g1, hg1, hp1, hd1⟩

/-- The result list of a non-blank search, characterized by membership:
exactly the records of the groups whose key has the trimmed query as a
prefix. -/
theorem mem_searchResults (di : DocumentIndex) (q : String) (now : Nat)
    (hq : trimSpace q ≠ "") (d : DocumentInfo) :
    (d ∈ (SearchDocuments di q now).results) ↔
      ∃ g, g ∈ di.documents ∧ hasPfx g.1 (trimSpace q) = true ∧ d ∈ g.2 := by
  simp only [SearchDocuments, if_neg hq]
  rw [mem_search_foldl]
  simp

/-! ## Trimming lemmas -/

/-- The character list of a trimmed string: drop the leading white space,
then the trailing white space. -/
theorem trimSpace_data (s : String) :
    (trimSpace s).data
      = List.rdropWhile goIsSpace (s.data.dropWhile goIsSpace) := rfl

/-- A trimmed string has no leading white space left. -/
theorem trimSpace_dropWhile (s : String) :
    (trimSpace s).data.dropWhile goIsSpace = (trimSpace s).data := by
  rw [trimSpace_data]
  rcases hB : List.rdropWhile goIsSpace (s.data.dropWhile goIsSpace)
    with _ | ⟨c, t⟩
  · rfl
  · have hpre := List.rdropWhile_prefix goIsSpace (s.data.dropWhile goIsSpace)
    rw [hB] at hpre
    obtain ⟨rest, hrest⟩ := hpre
    have hAA := List.dropWhile_idempotent goIsSpace s.data
    rw [← hrest] at hAA
    have hc : ¬ goIsSpace c = true := by
      intro hcc
      rw [List.cons_append, List.dropWhile_cons_of_pos hcc] at hAA
      have hlen := congrArg List.length hAA
      have hle : ((t ++ rest).dropWhile goIsSpace).length
          ≤ (t ++ rest).length :=
        ((List.dropWhile_suffix goIsSpace).sublist).length_le
      simp only [List.length_cons] at hlen
      omega
    exact List.dropWhile_cons_of_neg hc

/-- A trimmed string has no trailing white space left either, so trimming
is idempotent. -/
theorem trimSpace_idem (s : String) :
    trimSpace (trimSpace s) = trimSpace s := by
  have h1 : (trimSpace (trimSpace s)).data = (trimSpace s).data := by
    rw [trimSpace_data (trimSpace s), trimSpace_dropWhile, trimSpace_data,
      List.rdropWhile_idempotent]
  exact String.ext h1

/-- C9: `SearchDocuments` trims the query before doing anything else: the
echoed `query` field is the trimmed string, and the whole result coincides
with searching for the trimmed query (the match is performed against the
trimmed string). -/
theorem search_trims_query (di : DocumentIndex) (q : String) (now : Nat) :
    (SearchDocuments di q now).query = trimSpace q
  ∧ SearchDocuments di q now = SearchDocuments di (trimSpace q) now := by
  constructor
  · by_cases h : trimSpace q = "" <;> simp [SearchDocuments, h]
  · simp [SearchDocuments, trimSpace_idem]

/-- C3: a query that is empty or made of white space only yields a
successful result with an empty result list and count 0, whatever the
snapshot holds. -/
theorem search_blank_query (di : DocumentIndex) (q : String) (now : Nat)
    (h : q.data.all goIsSpace = true) :
    (SearchDocuments di q now).results = []
  ∧ (SearchDocuments di q now).count = 0 := by
  have ht : trimSpace q = "" := by
    apply String.ext
    rw [trimSpace_data]
    have h1 : q.data.dropWhile goIsSpace = [] :=
      List.dropWhile_eq_nil_iff.mpr (by simpa [List.all_eq_true] using h)
    rw [h1]
    rfl
  simp [SearchDocuments, ht]

/-- Witness for C3 at the whitespace-only query " \t " against the
scenario snapshot. -/
theorem search_blank_query_witness :
    (SearchDocuments scenarioIndex " \t " 5).results = []
  ∧ (SearchDocuments scenarioIndex " \t " 5).count = 0 :=
  search_blank_query scenarioIndex " \t " 5 (by decide)

/-- C2 (counterexample to the raw-string reading): the query " re" is
non-empty, yet the search returns records whose identifier does not start
with " re" — the code matches against the trimmed query "re", not the raw
input. -/
theorem search_raw_query_cex :
    ((" re" : String) ≠ "")
  ∧ ∃ d ∈ (SearchDocuments scenarioIndex " re" 0).results,
      hasPfx d.id " re" = false := by decide

/-- C2 (amended): for every query that is non-empty and carries no
leading or trailing white space, search is sound and complete for
case-sensitive prefix match: a record is returned exactly when it lies in
the snapshot and its identifier starts with the query (for snapshots
whose records carry their group key as identifier, as every scan
produces). -/
theorem search_sound_complete (di : DocumentIndex) (q : String) (now : Nat)
    (hq : trimSpace q = q) (hne : q ≠ "")
    (hwf : ∀ g ∈ di.documents, ∀ d ∈ g.2, d.id = g.1) (d : DocumentInfo) :
    (d ∈ (SearchDocuments di q now).results) ↔
      ((∃ g ∈ di.documents, d ∈ g.2) ∧ hasPfx d.id q = true) := by
  rw [mem_searchResults di q now (by rw [hq]; exact hne) d, hq]
  constructor
  · rintro ⟨g, hg, hp, hd⟩
    refine ⟨⟨g, hg, hd⟩, ?_⟩
    rw [hwf g hg d hd]
    exact hp
  · rintro ⟨⟨g, hg, hd⟩, hp⟩
    refine ⟨g, hg, ?_, hd⟩
    rw [← hwf g hg d hd]
    exact hp

/-- Witness for the amended C2 at the query "re" against the scenario
snapshot. -/
theorem search_sound_complete_witness :
    (docAReport ∈ (SearchDocuments scenarioIndex "re" 0).results) ↔
      ((∃ g ∈ scenarioIndex.documents, docAReport ∈ g.2)
        ∧ hasPfx docAReport.id "re" = true) :=
  search_sound_complete scenarioIndex "re" 0 (by decide) (by decide)
    (by decide) docAReport

/-! ## Scanner lemmas -/

/-- The inserted record lands in the group of its key. -/
theorem insertDoc_self :
    ∀ (m : DocsMap) (k : String) (d : DocumentInfo),
      ∃ g ∈ insertDoc m k d, g.1 = k ∧ d ∈ g.2
  | [], k, d => ⟨(k, [d]), by simp [insertDoc]⟩
  | (k0, ds) :: rest, k, d => by
    by_cases h : k0 = k
    · exact ⟨(k0, ds ++ [d]), by simp [insertDoc, h]⟩
    · obtain ⟨g, hg, h1, h2⟩ := insertDoc_self rest k d
      exact ⟨g, by simp [insertDoc, h, hg], h1, h2⟩

/-- Records present before an insertion stay present afterwards. -/
theorem insertDoc_mono :
    ∀ (m : DocsMap) (k2 : String) (d2 : DocumentInfo) (k : String)
      (d : DocumentInfo),
      (∃ g ∈ m, g.1 = k ∧ d ∈ g.2) →
      ∃ g ∈ insertDoc m k2 d2, g.1 = k ∧ d ∈ g.2
  | [], _, _, _, _, h => by simp at h
  | (k0, ds) :: rest, k2, d2, k, d, h => by
    obtain ⟨g, hg, h1, h2⟩ := h
    rcases List.mem_cons.mp hg with rfl | hmem
    · by_cases hk : k0 = k2
      · exact ⟨(k0, ds ++ [d2]), by simp [insertDoc, hk], h1,
          List.mem_append_left _ h2⟩
      · exact ⟨(k0, ds), by simp [insertDoc, hk], h1, h2⟩
    · by_cases hk : k0 = k2
      · exact ⟨g, by simp [insertDoc, hk, hmem], h1, h2⟩
      · obtain ⟨g2, hg2, h3, h4⟩ := insertDoc_mono rest k2 d2 k d ⟨g, hmem, h1, h2⟩
        exact ⟨g2, by simp [insertDoc, hk, hg2], h3, h4⟩

/-- One callback invocation never removes a record from the map. -/
theorem walkStep_mono (r : String) (docs : DocsMap) (ev : WalkEvent)
    (k : String) (d : DocumentInfo)
    (h : ∃ g ∈ docs, g.1 = k ∧ d ∈ g.2) :
    ∃ g ∈ (walkStep r docs ev).1, g.1 = k ∧ d ∈ g.2 := by
  cases ev with
  | error p => exact h
  | entry p info =>
    simp only [walkStep]
    split
    · exact h
    · split
      · exact h
      · exact insertDoc_mono docs _ _ k d h

/-- The rest of a walk never removes a record from the map. -/
theorem runWalk_mono (r : String) :
    ∀ (evs : List WalkEvent) (docs : DocsMap) (k : String)
      (d : DocumentInfo),
      (∃ g ∈ docs, g.1 = k ∧ d ∈ g.2) →
      ∃ g ∈ (runWalk r docs evs).1, g.1 = k ∧ d ∈ g.2
  | [], _, _, _, h => h
  | ev :: rest, docs, k, d, h => by
    rw [runWalk_cons]
    exact runWalk_mono r rest _ k d (walkStep_mono r docs ev k d h)

/-- Every successfully visited file entry with a non-empty name ends up
in the final map, under its base filename. -/
theorem runWalk_mem_of_entry (r : String) :
    ∀ (evs : List WalkEvent) (docs : DocsMap) (path : String)
      (info : FileInfo),
      WalkEvent.entry path info ∈ evs → info.isDir = false →
      info.name ≠ "" →
      ∃ g ∈ (runWalk r docs evs).1,
        g.1 = info.name ∧ mkDoc r path info ∈ g.2
  | [], _, _, _, h, _, _ => absurd h (List.not_mem_nil _)
  | ev :: rest, docs, path, info, h, hdir, hname => by
    rw [runWalk_cons]
    rcases List.mem_cons.mp h with heq | hmem
    · subst heq
      refine runWalk_mono r rest _ _ _ ?_
      simpa [walkStep, hdir, hname] using
        insertDoc_self docs info.name (mkDoc r path info)
    · exact runWalk_mem_of_entry r rest _ path info hmem hdir hname

/-- Dropping the error invocations from the event list does not change
the walk: the callback treats them as no-ops. -/
theorem runWalk_filter_errors (r : String) :
    ∀ (evs : List WalkEvent) (docs : DocsMap),
      runWalk r docs (evs.filter (fun e => !e.isErr)) = runWalk r docs evs
  | [], _ => rfl
  | ev :: rest, docs => by
    cases ev with
    | error p =>
      rw [runWalk_cons r docs (WalkEvent.error p) rest]
      have hf : (WalkEvent.error p :: rest).filter (fun e => !e.isErr)
          = rest.filter (fun e => !e.isErr) := by
        simp [List.filter_cons, WalkEvent.isErr]
      rw [hf]
      exact runWalk_filter_errors r rest docs
    | entry p info =>
      have hf : (WalkEvent.entry p info :: rest).filter (fun e => !e.isErr)
          = WalkEvent.entry p info :: rest.filter (fun e => !e.isErr) := by
        simp [List.filter_cons, WalkEvent.isErr]
      rw [hf, runWalk_cons, runWalk_cons]
      exact runWalk_filter_errors r rest _

/-- C4: per-entry errors are skipped without aborting the walk: a scan
over the full event list coincides with a scan over the events with the
error invocations removed, and every successfully visited file entry
(non-directory, non-empty base name) contributes its record to the
resulting snapshot. -/
theorem scan_skips_entry_errors (di : DocumentIndex) (r : String)
    (evs : List WalkEvent) (now : Nat) :
    scanDocuments di r evs now
        = scanDocuments di r (evs.filter (fun e => !e.isErr)) now
  ∧ ∀ path info, WalkEvent.entry path info ∈ evs →
      info.isDir = false → info.name ≠ "" →
      ∃ g ∈ (scanDocuments di r evs now).documents,
        g.1 = info.name ∧ mkDoc r path info ∈ g.2 := by
  constructor
  · rw [scanDocuments_eq, scanDocuments_eq, runWalk_filter_errors]
  · intro path info hmem hdir hname
    rw [scanDocuments_eq]
    exact runWalk_mem_of_entry r evs [] path info hmem hdir hname

/-- Witness for C4: a per-entry error injected into the scenario walk
changes nothing, and the `a/report.txt` entry is still indexed. -/
theorem scan_skips_entry_errors_witness :
    (scanDocuments NewDocumentIndex "/docs"
        (WalkEvent.error "/docs/x" :: scenarioEvents) 50
      = scanDocuments NewDocumentIndex "/docs"
          ((WalkEvent.error "/docs/x" :: scenarioEvents).filter
            (fun e => !e.isErr)) 50)
  ∧ ∃ g ∈ (scanDocuments NewDocumentIndex "/docs"
        (WalkEvent.error "/docs/x" :: scenarioEvents) 50).documents,
      g.1 = "report.txt"
        ∧ mkDoc "/docs" "/docs/a/report.txt" ⟨"report.txt", 10, 1, false⟩ ∈ g.2 :=
  ⟨(scan_skips_entry_errors NewDocumentIndex "/docs"
      (WalkEvent.error "/docs/x" :: scenarioEvents) 50).1,
   (scan_skips_entry_errors NewDocumentIndex "/docs"
      (WalkEvent.error "/docs/x" :: scenarioEvents) 50).2
      "/docs/a/report.txt" ⟨"report.txt", 10, 1, false⟩
      (by decide) rfl (by decide)⟩

/-! ## Well-formedness of scanned snapshots -/

/-- Inserting a record whose `id` and `name` equal its non-empty key
preserves the key/field agreement of the map. -/
theorem insertDoc_wf :
    ∀ (m : DocsMap) (k : String) (d : DocumentInfo),
      (∀ g ∈ m, ∀ x ∈ g.2, x.id = g.1 ∧ x.name = g.1 ∧ g.1 ≠ "") →
      d.id = k → d.name = k → k ≠ "" →
      ∀ g ∈ insertDoc m k d, ∀ x ∈ g.2,
        x.id = g.1 ∧ x.name = g.1 ∧ g.1 ≠ ""
  | [], k, d, _, h1, h2, h3 => by
    intro g hg x hx
    simp [insertDoc] at hg
    subst hg
    simp at hx
    subst hx
    exact ⟨h1, h2, h3⟩
  | (k0, ds) :: rest, k, d, hm, h1, h2, h3 => by
    intro g hg x hx
    by_cases hk : k0 = k
    · subst hk
      simp only [insertDoc, if_pos rfl] at hg
      rcases List.mem_cons.mp hg with rfl | hmem
      · rcases List.mem_append.mp hx with hx1 | hx2
        · exact hm (k0, ds) (List.mem_cons_self _ _) x hx1
        · simp at hx2
          subst hx2
          exact ⟨h1, h2, h3⟩
      · exact hm g (List.mem_cons_of_mem _ hmem) x hx
    · simp only [insertDoc, if_neg hk] at hg
      rcases List.mem_cons.mp hg with rfl | hmem
      · exact hm (k0, ds) (List.mem_cons_self _ _) x hx
      · exact insertDoc_wf rest k d
          (fun g2 hg2 => hm g2 (List.mem_cons_of_mem _ hg2)) h1 h2 h3
          g hmem x hx

/-- One callback invocation preserves key/field agreement. -/
theorem walkStep_wf (r : String) (docs : DocsMap) (ev : WalkEvent)
    (h : ∀ g ∈ docs, ∀ x ∈ g.2, x.id = g.1 ∧ x.name = g.1 ∧ g.1 ≠ "") :
    ∀ g ∈ (walkStep r docs ev).1, ∀ x ∈ g.2,
      x.id = g.1 ∧ x.name = g.1 ∧ g.1 ≠ "" := by
  cases ev with
  | error p => exact h
  | entry p info =>
    simp only [walkStep]
    split
    · exact h
    · split
      · exact h
      · exact insertDoc_wf docs info.name (mkDoc r p info) h rfl rfl
          (by assumption)

/-- A walk preserves key/field agreement. -/
theorem runWalk_wf (r : String) :
    ∀ (evs : List WalkEvent) (docs : DocsMap),
      (∀ g ∈ docs, ∀ x ∈ g.2, x.id = g.1 ∧ x.name = g.1 ∧ g.1 ≠ "") →
      ∀ g ∈ (runWalk r docs evs).1, ∀ x ∈ g.2,
        x.id = g.1 ∧ x.name = g.1 ∧ g.1 ≠ ""
  | [], _, h => h
  | ev :: rest, docs, h => by
    rw [runWalk_cons]
    exact runWalk_wf r rest _ (walkStep_wf r docs ev h)

/-- C10: every snapshot a scan produces is well-formed — each record
stored under a key carries that key as its `id` and as its `name`, and
the key is non-empty (entries with an empty base filename are never
indexed). -/
theorem scan_wellformed (di : DocumentIndex) (r : String)
    (evs : List WalkEvent) (now : Nat) :
    ∀ g ∈ (scanDocuments di r evs now).documents, ∀ d ∈ g.2,
      d.id = g.1 ∧ d.name = g.1 ∧ g.1 ≠ "" := by
  rw [scanDocuments_eq]
  exact runWalk_wf r evs [] (by simp)

/-- Witness for C10 on the scenario snapshot, at the group of
"report.txt" and the record of `a/report.txt`. -/
theorem scan_wellformed_witness :
    docAReport.id = "report.txt" ∧ docAReport.name = "report.txt"
      ∧ ("report.txt" : String) ≠ "" :=
  scan_wellformed NewDocumentIndex "/docs" scenarioEvents 50
    ("report.txt", [docAReport, docBReport]) (by decide)
    docAReport (by decide)

/-! ## Atomicity of snapshot observation

`DocumentIndex.mu` is held exclusively for the whole of `scanDocuments`
(write lock around clear + walk + install) and shared for the whole of
`SearchDocuments` and `GetIndexStats` (read lock). A reader therefore
never runs while the writer is mutating the map: every interleaving of
the Go program is equivalent to a sequence in which each locked region
executes atomically. `IndexOp` is one locked region; `runOps` is such a
sequence. -/

/-- One locked operation on the shared index: a refresh (the whole
write-locked region of `scanDocuments`) or a search (the whole
read-locked region of `SearchDocuments`). -/
inductive IndexOp where
  | refresh (rootPath : String) (events : List WalkEvent) (now : Nat)
  | search (q : String) (now : Nat)

/-- Execute one locked region: the state after it and the result it
returns to its caller, if any. -/
def stepOp (di : DocumentIndex) : IndexOp → DocumentIndex × Option SearchResult
  | .refresh r evs now => (scanDocuments di r evs now, none)
  | .search q now => (di, some (SearchDocuments di q now))

/-- Execute a sequence of locked regions, collecting the search results
in order. -/
def runOps : DocumentIndex → List IndexOp → DocumentIndex × List SearchResult
  | di, [] => (di, [])
  | di, op :: ops =>
    ((runOps (stepOp di op).1 ops).1,
     (stepOp di op).2.toList ++ (runOps (stepOp di op).1 ops).2)

/-- A complete snapshot: the initial index state, or the state installed
by some completed scan. -/
def IsCompleteSnapshot (init s : DocumentIndex) : Prop :=
  s = init ∨ ∃ prev r evs now, s = scanDocuments prev r evs now

/-- States that are complete for a post-refresh initial state are
complete for the original one. -/
theorem isCompleteSnapshot_scan (init prev : DocumentIndex) (r : String)
    (evs : List WalkEvent) (now : Nat) (s : DocumentIndex)
    (h : IsCompleteSnapshot (scanDocuments prev r evs now) s) :
    IsCompleteSnapshot init s := by
  rcases h with rfl | h
  · exact Or.inr ⟨prev, r, evs, now, rfl⟩
  · exact Or.inr h

/-- C8: every result a search returns, anywhere in a sequence of locked
operations, is the pure search function applied to one complete
snapshot — never a mixture of two snapshots. -/
theorem search_observes_complete_snapshot :
    ∀ (ops : List IndexOp) (init : DocumentIndex) (res : SearchResult),
      res ∈ (runOps init ops).2 →
      ∃ s, IsCompleteSnapshot init s ∧ ∃ q now, res = SearchDocuments s q now
  | [], init, res, h => absurd h (List.not_mem_nil _)
  | op :: ops, init, res, h => by
    cases op with
    | refresh r evs now =>
      obtain ⟨s, hs, hres⟩ :=
        search_observes_complete_snapshot ops (scanDocuments init r evs now)
          res (by simpa [runOps, stepOp] using h)
      exact ⟨s, isCompleteSnapshot_scan init init r evs now s hs, hres⟩
    | search q now =>
      rcases (by simpa [runOps, stepOp] using h :
          res = SearchDocuments init q now ∨ res ∈ (runOps init ops).2) with
        rfl | hmem
      · exact ⟨init, Or.inl rfl, q, now, rfl⟩
      · exact search_observes_complete_snapshot ops init res hmem

/-- Witness for C8: a search interleaved after a refresh in a two-step
trace observes a complete snapshot. -/
theorem search_observes_complete_snapshot_witness :
    ∃ s, IsCompleteSnapshot NewDocumentIndex s ∧ ∃ q now,
      ({ query := "report", results := [docAReport, docBReport], count := 2,
         searchTime := 60 } : SearchResult) = SearchDocuments s q now :=
  search_observes_complete_snapshot
    [IndexOp.refresh "/docs" scenarioEvents 50, IndexOp.search "report" 60]
    NewDocumentIndex _ (by decide)

/-- Witness for the quantified conjunct of C5: the record of
`a/report.txt` carries its base filename as identifier. -/
theorem scenario_searches_witness :
    docAReport.id = docAReport.name :=
  scenario_searches.2.2.2.2.2.2.2 ("report.txt", [docAReport, docBReport])
    (by decide) docAReport (by decide)
